import Mathlib

/-!
Shallow embedding of `src/main.py` (realtime-weather-iot-pipeline).

The script is single-threaded and strictly sequential, so every effectful
function is embedded as a pure Lean function over explicit inputs:

* a weather `Reading` / MongoDB document is an association list of string
  keys and JSON-like values (`Doc`);
* the outcomes of the external world (MongoDB `insert_one` calls, HTTP
  responses, the system clock) are passed in as explicit parameters
  (`outcomes : ℕ → InsertOutcome`, `HttpResponse`, `now : ℕ`);
* Python exceptions are modelled with explicit result constructors
  (`Except PyError _`, `InsertResult`), and `time.sleep` calls are recorded
  as a trace of their arguments;
* Python floats are modelled as exact rationals `ℚ`.
-/

namespace WeatherPipeline

/-- JSON-like values appearing in a weather reading / MongoDB document.
`jtime t` stands for the `datetime.now(UTC)` value taken at abstract
clock reading `t`. -/
inductive JVal where
  | jnull
  | jbool (b : Bool)
  | jnum (q : ℚ)
  | jstr (s : String)
  | jtime (t : ℕ)
  deriving DecidableEq, Repr

/-- A decoded JSON object / MongoDB document: an association list of
fields, in insertion order, with unique keys (Python `dict`). -/
abbrev Doc := List (String × JVal)

/-- Python `d[k]` read on an association list: first matching key. -/
def lookupKey {α : Type} : List (String × α) → String → Option α
  | [], _ => none
  | (k1, v1) :: rest, k => if k1 = k then some v1 else lookupKey rest k

/-- Python `d[k] = v` on a `dict`: overwrite the value in place if the key
is present, otherwise append the new binding at the end. -/
def setField : Doc → String → JVal → Doc
  | [], k, v => [(k, v)]
  | (k1, v1) :: rest, k, v =>
    if k1 = k then (k, v) :: rest else (k1, v1) :: setField rest k v

/-- Outcome of one `coll.insert_one(data)` call, supplied by the
environment: success with a storage-assigned id, the transient
`errors.AutoReconnect` exception, or any other exception. -/
inductive InsertOutcome where
  | success (id : ℕ)
  | autoReconnect
  | otherError (e : String)
  deriving DecidableEq, Repr

/-- How `insert_data_to_mongodb` finishes.  `returnedNone` is the implicit
`return None` reached when the `for attempt in range(max_retries + 1)`
loop runs out of iterations without returning or raising. -/
inductive InsertResult where
  | returnedId (id : ℕ)
  | returnedNone
  | raisedAutoReconnect
  | raisedOther (e : String)
  deriving DecidableEq, Repr

/-- Trace of one `insert_data_to_mongodb` call: how it finished, the
argument of every `sleep(retry_pause)` executed (in order), and the
document passed to `insert_one` on each attempt (in order). -/
structure InsertRun where
  result : InsertResult
  sleeps : List ℕ
  insertedDocs : List Doc
  deriving DecidableEq, Repr

/-- The `for attempt in range(max_retries + 1)` retry loop of
`insert_data_to_mongodb` (src/main.py:169-182).  `attempt` is the current
0-based loop index and `fuel` the number of loop iterations left; the body
tries `insert_one`, returns on success, re-raises `AutoReconnect` when
`attempt + 1 == max_retries`, and otherwise sleeps `(attempt + 1) ** 2`
seconds and retries.  Any other exception propagates uncaught. -/
def insertAttemptLoop (outcomes : ℕ → InsertOutcome) (maxRetries : ℕ) (doc : Doc) :
    (attempt : ℕ) → (fuel : ℕ) → InsertRun
  | _, 0 => ⟨.returnedNone, [], []⟩
  | attempt, fuel + 1 =>
    match outcomes attempt with
    | .success id => ⟨.returnedId id, [], [doc]⟩
    | .otherError e => ⟨.raisedOther e, [], [doc]⟩
    | .autoReconnect =>
      if attempt + 1 = maxRetries then
        ⟨.raisedAutoReconnect, [], [doc]⟩
      else
        let pause := (attempt + 1) ^ 2
        let rest := insertAttemptLoop outcomes maxRetries doc (attempt + 1) fuel
        ⟨rest.result, pause :: rest.sleeps, doc :: rest.insertedDocs⟩

/-- `insert_data_to_mongodb(client, database, collection, data, max_retries)`
(src/main.py:159-182): sets `data["processed_at"] = None` and
`data["inserted_at"] = datetime.now(UTC)` once, then runs the retry loop.
`now` is the clock reading at the single `datetime.now(UTC)` call and
`outcomes n` the behaviour of the n-th `insert_one` attempt. -/
def insert_data_to_mongodb (now : ℕ) (outcomes : ℕ → InsertOutcome) (data : Doc)
    (max_retries : ℕ) : InsertRun :=
  let doc := setField (setField data "processed_at" .jnull) "inserted_at" (.jtime now)
  insertAttemptLoop outcomes max_retries doc 0 (max_retries + 1)

/-- Values of an HTTP query parameter: a string (the api key) or a number
(`lat`, `lon`). -/
inductive PVal where
  | str (s : String)
  | num (q : ℚ)
  deriving DecidableEq, Repr

/-- A Python `dict` of query parameters. -/
abbrev PDict := List (String × PVal)

/-- Python `d[k] = v` on a parameter dict (overwrite in place or append). -/
def setParam : PDict → String → PVal → PDict
  | [], k, v => [(k, v)]
  | (k1, v1) :: rest, k, v =>
    if k1 = k then (k, v) :: rest else (k1, v1) :: setParam rest k v

/-- Python `{**a, **b}`: start from `a`, then insert every binding of `b`
in order, overwriting on key collision (so `b`'s values win). -/
def dictMerge (a b : PDict) : PDict :=
  b.foldl (fun acc kv => setParam acc kv.1 kv.2) a

/-- The single GET request `requests.get(url, params)` is described by its
target URL and its query parameters. -/
structure HttpRequest where
  url : String
  params : PDict
  deriving DecidableEq, Repr

set_option linter.unusedVariables false in
/-- The request-building half of `get_current_weather` (src/main.py:141-146).
`apikeyGlobal` and `baseurlGlobal` are the module-level constants `APIKEY`
and `BASEURL`.  Note the source builds `requiredparams` from the *global*
`APIKEY` and sends the request to the *global* `BASEURL`, leaving the
`url` and `appid` parameters of the function unused. -/
def weatherRequest (apikeyGlobal baseurlGlobal : String) (url appid : String)
    (lat lon : ℚ) (query_dict : PDict) : HttpRequest :=
  let requiredparams : PDict :=
    [("appid", .str apikeyGlobal), ("lat", .num lat), ("lon", .num lon)]
  let getparams := dictMerge requiredparams query_dict
  { url := baseurlGlobal, params := getparams }

/-- An HTTP response, reduced to what `get_current_weather` inspects:
the status code and the result of `json.loads(response.text)` —
`none` when the body text is not valid JSON (a raised
`json.JSONDecodeError`), `some d` when it decodes to the document `d`. -/
structure HttpResponse where
  status : ℕ
  body : Option Doc
  deriving DecidableEq, Repr

/-- Python exceptions that can escape the embedded functions. -/
inductive PyError where
  | jsonDecodeError
  | keyError (k : String)
  | autoReconnectError
  | otherError (e : String)
  deriving DecidableEq, Repr

/-- Log events relevant to the claims. -/
inductive LogEvent where
  | apiError (errmsg : JVal) (code : ℕ)
  | hcFailure (e : String)
  deriving DecidableEq, Repr

/-- The `{}` returned by `get_current_weather` on a non-200 status. -/
def emptyMarker : Doc := []

/-- The response-handling half of `get_current_weather`
(src/main.py:146-156): decode `response.text` as JSON (this happens
*before* the status check, so an undecodable body raises for any status),
return the decoded dict on status 200, and otherwise read
`resp_dict["message"]` (a `KeyError` if absent), log it, and return `{}`.
The second component is the list of error-level log events. -/
def get_current_weather (resp : HttpResponse) :
    Except PyError Doc × List LogEvent :=
  match resp.body with
  | none => (.error .jsonDecodeError, [])
  | some respDict =>
    if resp.status = 200 then
      (.ok respDict, [])
    else
      match lookupKey respDict "message" with
      | some errmsg => (.ok emptyMarker, [.apiError errmsg resp.status])
      | none => (.error (.keyError "message"), [])

/-- Outcome of the GET request issued by `healthcheck`: either a response
(status irrelevant) or a raised `requests.RequestException`, which covers
every network-level failure of `requests.get`. -/
inductive HcOutcome where
  | ok (status : ℕ)
  | requestException (e : String)
  deriving DecidableEq, Repr

/-- `healthcheck(hcurl)` (src/main.py:185-191): one GET with a 10s
timeout inside `try`, catching `requests.RequestException` and logging it.
The first component is the call's result as seen by the caller. -/
def healthcheck (outcome : HcOutcome) : Except PyError Unit × List LogEvent :=
  match outcome with
  | .ok _ => (.ok (), [])
  | .requestException e => (.ok (), [.hcFailure e])

/-- Observable effects of one iteration of the inner `for lat, lon in
weather_area` loop body, when it completes without raising. -/
structure PointEffects where
  counterAfter : ℕ
  persisted : Bool
  sleptInterval : Bool
  healthchecked : Bool
  deriving DecidableEq, Repr

/-- One iteration of the per-coordinate loop body of `main`
(src/main.py:64-93): call `get_current_weather`; on `data == {}` log and
`continue` (which skips the rest of the body, *including* `sleep(1.5)`);
otherwise call `insert_data_to_mongodb(..., max_retries=5)` (uncaught
exceptions propagate), increment `processed_data`, run `healthcheck`
every 25th success, and `sleep(1.5)`.  `counter` is `processed_data`
before the iteration and `fetched` the result of the fetch. -/
def mainStep (now : ℕ) (outcomes : ℕ → InsertOutcome) (counter : ℕ)
    (fetched : Except PyError Doc) : Except PyError PointEffects :=
  match fetched with
  | .error e => .error e
  | .ok data =>
    if data = emptyMarker then
      .ok ⟨counter, false, false, false⟩
    else
      let run := insert_data_to_mongodb now outcomes data 5
      match run.result with
      | .raisedAutoReconnect => .error .autoReconnectError
      | .raisedOther e => .error (.otherError e)
      | .returnedId _ =>
        .ok ⟨counter + 1, true, true, (counter + 1) % 25 == 0⟩
      | .returnedNone =>
        .ok ⟨counter + 1, true, true, (counter + 1) % 25 == 0⟩

/-- Whether the iteration executed its `sleep(1.5)`. -/
def steppedSlept : Except PyError PointEffects → Bool
  | .ok eff => eff.sleptInterval
  | .error _ => false

/-- `np.linspace(lo, hi, n)`: `n` evenly spaced rationals from `lo` to
`hi`, both endpoints included (exact over `ℚ`; meaningful for `n ≥ 2`). -/
def linspace (lo hi : ℚ) (n : ℕ) : List ℚ :=
  (List.range n).map (fun (i : ℕ) => lo + (i : ℚ) * (hi - lo) / ((n : ℚ) - 1))

/-- Python `min(l)` on a nonempty list (junk value 0 on `[]`, where the
source would raise). -/
def pyMin : List ℚ → ℚ
  | [] => 0
  | x :: xs => xs.foldl min x

/-- Python `max(l)` on a nonempty list (junk value 0 on `[]`). -/
def pyMax : List ℚ → ℚ
  | [] => 0
  | x :: xs => xs.foldl max x

/-- `get_grid_coordinates(corners, grid)` (src/main.py:96-108): take the
min/max of the corners' latitudes and longitudes, `linspace` each axis
with `grid` points, and return the cross product
`[(lat, lon) for lat in lat_points for lon in lon_points]`. -/
def get_grid_coordinates (corners : List (ℚ × ℚ)) (grid : ℕ) : List (ℚ × ℚ) :=
  let lat := corners.map Prod.fst
  let lon := corners.map Prod.snd
  let lat_points := linspace (pyMin lat) (pyMax lat) grid
  let lon_points := linspace (pyMin lon) (pyMax lon) grid
  lat_points.flatMap (fun lat => lon_points.map (fun lon => (lat, lon)))

/-- When every attempt raises `AutoReconnect`, the retry loop entered at
index `attempt < maxRetries` with enough fuel re-raises, after exactly
`maxRetries - attempt` further `insert_one` attempts. -/
lemma insertAttemptLoop_all_transient (outcomes : ℕ → InsertOutcome)
    (maxRetries : ℕ) (doc : Doc) (hall : ∀ n, outcomes n = .autoReconnect) :
    ∀ fuel attempt, attempt < maxRetries → maxRetries ≤ attempt + fuel →
      (insertAttemptLoop outcomes maxRetries doc attempt fuel).result =
        .raisedAutoReconnect ∧
      (insertAttemptLoop outcomes maxRetries doc attempt fuel).insertedDocs.length =
        maxRetries - attempt := by
  intro fuel
  induction fuel with
  | zero => intro attempt h1 h2; omega
  | succ fuel ih =>
    intro attempt h1 h2
    have ho := hall attempt
    by_cases hlast : attempt + 1 = maxRetries
    · simp [insertAttemptLoop, ho, hlast]
      omega
    · have hlt : attempt + 1 < maxRetries := by omega
      have := ih (attempt + 1) hlt (by omega)
      simp [insertAttemptLoop, ho, hlast, this.1, this.2]
      omega

/-- Every document handed to `insert_one` by the retry loop is the one
document prepared before the loop. -/
lemma insertAttemptLoop_docs (outcomes : ℕ → InsertOutcome)
    (maxRetries : ℕ) (doc : Doc) :
    ∀ fuel attempt,
      ∀ d ∈ (insertAttemptLoop outcomes maxRetries doc attempt fuel).insertedDocs,
        d = doc := by
  intro fuel
  induction fuel with
  | zero => intro attempt d hd; simp [insertAttemptLoop] at hd
  | succ fuel ih =>
    intro attempt d hd
    cases ho : outcomes attempt with
    | success id => simp [insertAttemptLoop, ho] at hd; exact hd
    | otherError e => simp [insertAttemptLoop, ho] at hd; exact hd
    | autoReconnect =>
      by_cases hlast : attempt + 1 = maxRetries
      · simp [insertAttemptLoop, ho, hlast] at hd; exact hd
      · simp [insertAttemptLoop, ho, hlast] at hd
        rcases hd with hd | hd
        · exact hd
        · exact ih (attempt + 1) d hd

/-- Reading back the key just written by `setField`. -/
lemma lookupKey_setField_self (d : Doc) (k : String) (v : JVal) :
    lookupKey (setField d k v) k = some v := by
  induction d with
  | nil => simp [setField, lookupKey]
  | cons kv rest ih =>
    by_cases hk : kv.1 = k
    · simp [setField, hk, lookupKey]
    · simp [setField, hk, lookupKey, ih]

/-- `setField` leaves every other key unchanged. -/
lemma lookupKey_setField_ne (d : Doc) (k : String) (v : JVal) (k2 : String)
    (h : k2 ≠ k) : lookupKey (setField d k v) k2 = lookupKey d k2 := by
  induction d with
  | nil => simp [setField, lookupKey, Ne.symm h]
  | cons kv rest ih =>
    by_cases hk : kv.1 = k
    · subst hk
      simp [setField, lookupKey, Ne.symm h]
    · simp [setField, hk, lookupKey, ih]

/-- C1 (counterexample): with `max_retries = 0` and an `insert_one` that
always raises `AutoReconnect`, `insert_data_to_mongodb` does *not* raise:
the fatal-check `attempt + 1 == max_retries` never fires (1 ≠ 0), the
single loop iteration sleeps 1 s, the `for` loop ends, and the function
falls through to an implicit `return None` — a normal return with no
storage-assigned identifier. -/
theorem insert_zero_retries_returns_none :
    (insert_data_to_mongodb 0 (fun _ => .autoReconnect) [] 0).result =
      InsertResult.returnedNone ∧
    (insert_data_to_mongodb 0 (fun _ => .autoReconnect) [] 0).sleeps = [1] ∧
    InsertResult.returnedNone ≠ InsertResult.raisedAutoReconnect := by
  refine ⟨rfl, rfl, by decide⟩

/-- C1 (amended): for every `max_retries ≥ 1`, if every insert attempt
fails with the transient `AutoReconnect` error, `insert_data_to_mongodb`
re-raises the `AutoReconnect` error after exactly `max_retries` attempts
and never returns normally.  (At `max_retries = 0` the source instead
sleeps once and returns `None`, see the counterexample.) -/
theorem insert_raises_after_exhausting_retries (now : ℕ)
    (outcomes : ℕ → InsertOutcome) (data : Doc) (max_retries : ℕ)
    (hmax : 1 ≤ max_retries) (hall : ∀ n, outcomes n = .autoReconnect) :
    (insert_data_to_mongodb now outcomes data max_retries).result =
      .raisedAutoReconnect ∧
    (insert_data_to_mongodb now outcomes data max_retries).insertedDocs.length =
      max_retries := by
  unfold insert_data_to_mongodb
  have h := insertAttemptLoop_all_transient outcomes max_retries
    (setField (setField data "processed_at" .jnull) "inserted_at" (.jtime now))
    hall (max_retries + 1) 0 (by omega) (by omega)
  simpa using h

/-- C1 witness: the amended theorem applied at `max_retries = 2` with an
always-failing insert. -/
theorem insert_raises_after_exhausting_retries_witness :
    (insert_data_to_mongodb 0 (fun _ => .autoReconnect) [] 2).result =
      .raisedAutoReconnect ∧
    (insert_data_to_mongodb 0 (fun _ => .autoReconnect) [] 2).insertedDocs.length =
      2 :=
  insert_raises_after_exhausting_retries 0 (fun _ => .autoReconnect) [] 2
    (by decide) (fun _ => rfl)

/-- C5: if the first three `insert_one` attempts raise `AutoReconnect` and
the fourth succeeds, then with `max_retries = 5` the call returns the
storage-assigned identifier of attempt 4, and the sleeps between attempts
are `(attempt_number)²` seconds: 1 s, 4 s, 9 s, in that order. -/
theorem insert_three_transient_then_success (now : ℕ)
    (outcomes : ℕ → InsertOutcome) (data : Doc) (i : ℕ)
    (h0 : outcomes 0 = .autoReconnect) (h1 : outcomes 1 = .autoReconnect)
    (h2 : outcomes 2 = .autoReconnect) (h3 : outcomes 3 = .success i) :
    (insert_data_to_mongodb now outcomes data 5).result = .returnedId i ∧
    (insert_data_to_mongodb now outcomes data 5).sleeps = [1, 4, 9] := by
  unfold insert_data_to_mongodb
  norm_num [insertAttemptLoop, h0, h1, h2, h3]

/-- C5 witness: the theorem applied to a concrete outcome sequence with
three transient failures then success with id 7. -/
theorem insert_three_transient_then_success_witness :
    (insert_data_to_mongodb 0
      (fun n => if n < 3 then .autoReconnect else .success 7) [] 5).result =
      .returnedId 7 ∧
    (insert_data_to_mongodb 0
      (fun n => if n < 3 then .autoReconnect else .success 7) [] 5).sleeps =
      [1, 4, 9] :=
  insert_three_transient_then_success 0
    (fun n => if n < 3 then .autoReconnect else .success 7) [] 7 rfl rfl rfl rfl

/-- C8: every document handed to `insert_one` in one
`insert_data_to_mongodb` call has `processed_at = null` and `inserted_at`
equal to the single clock value read once before the first attempt (the
same value across all retries), and every other field of the Reading is
unchanged. -/
theorem insert_metadata_frame (now : ℕ) (outcomes : ℕ → InsertOutcome)
    (data : Doc) (max_retries : ℕ) :
    ∀ d ∈ (insert_data_to_mongodb now outcomes data max_retries).insertedDocs,
      lookupKey d "processed_at" = some JVal.jnull ∧
      lookupKey d "inserted_at" = some (JVal.jtime now) ∧
      ∀ k, k ≠ "processed_at" → k ≠ "inserted_at" →
        lookupKey d k = lookupKey data k := by
  intro d hd
  have hdoc := insertAttemptLoop_docs outcomes max_retries
    (setField (setField data "processed_at" .jnull) "inserted_at" (.jtime now))
    (max_retries + 1) 0 d hd
  subst hdoc
  refine ⟨?_, ?_, ?_⟩
  · rw [lookupKey_setField_ne _ _ _ _ (by decide), lookupKey_setField_self]
  · rw [lookupKey_setField_self]
  · intro k hk1 hk2
    rw [lookupKey_setField_ne _ _ _ _ hk2, lookupKey_setField_ne _ _ _ _ hk1]

/-- C8 witness: the theorem applied to the reading `{"temp": 300}`, clock
value 5, an immediately successful insert, `max_retries = 0`. -/
theorem insert_metadata_frame_witness :
    lookupKey [("temp", JVal.jnum 300), ("processed_at", JVal.jnull),
        ("inserted_at", JVal.jtime 5)] "processed_at" = some JVal.jnull ∧
    lookupKey [("temp", JVal.jnum 300), ("processed_at", JVal.jnull),
        ("inserted_at", JVal.jtime 5)] "inserted_at" = some (JVal.jtime 5) ∧
    ∀ k, k ≠ "processed_at" → k ≠ "inserted_at" →
      lookupKey [("temp", JVal.jnum 300), ("processed_at", JVal.jnull),
          ("inserted_at", JVal.jtime 5)] k =
        lookupKey [("temp", JVal.jnum 300)] k :=
  insert_metadata_frame 5 (fun _ => .success 1) [("temp", JVal.jnum 300)] 0
    _ (List.Mem.head _)

/-- C2 (counterexample): a coordinate whose fetch returned the
empty-marker `{}` hits the `continue` in `main`, which skips the rest of
the loop body *including* `sleep(1.5)`: the iteration completes with no
interval sleep, contradicting the claim that the 1.5 s delay runs after
every grid point. -/
theorem skip_point_skips_interval_sleep :
    mainStep 0 (fun _ => .success 0) 0 (.ok emptyMarker) =
      .ok ⟨0, false, false, false⟩ ∧
    steppedSlept (mainStep 0 (fun _ => .success 0) 0 (.ok emptyMarker)) =
      false := ⟨rfl, rfl⟩

/-- C2 (amended): the fixed 1.5 s delay executes exactly for the points
whose reading was persisted: an iteration of the Ingest Loop body that
completes without raising slept the interval iff it persisted, so a point
skipped on the empty-marker moves to the next Coordinate with no delay. -/
theorem interval_sleep_iff_persisted (now : ℕ) (outcomes : ℕ → InsertOutcome)
    (counter : ℕ) (fetched : Except PyError Doc) (eff : PointEffects)
    (h : mainStep now outcomes counter fetched = .ok eff) :
    eff.sleptInterval = eff.persisted := by
  cases fetched with
  | error e => simp [mainStep] at h
  | ok data =>
    by_cases hd : data = emptyMarker
    · simp [mainStep, hd] at h
      subst h
      rfl
    · rcases hr : (insert_data_to_mongodb now outcomes data 5).result with i | _ | _ | e <;>
        simp [mainStep, hd, hr] at h
      · subst h; rfl
      · subst h; rfl

/-- C2 witness: the amended theorem applied to a persisted point. -/
theorem interval_sleep_iff_persisted_witness :
    PointEffects.sleptInterval ⟨1, true, true, false⟩ =
      PointEffects.persisted ⟨1, true, true, false⟩ :=
  interval_sleep_iff_persisted 0 (fun _ => .success 3) 0
    (.ok [("temp", JVal.jnum 1)]) ⟨1, true, true, false⟩ rfl

/-- C3 (counterexample): a non-200 response whose decoded body has no
`message` field does not return the empty-marker: `resp_dict["message"]`
raises a `KeyError` that propagates to the caller. -/
theorem non200_without_message_raises :
    (get_current_weather ⟨404, some [("cod", JVal.jstr "404")]⟩).1 =
      .error (.keyError "message") ∧
    (Except.error (PyError.keyError "message") :
        Except PyError Doc) ≠ .ok emptyMarker := ⟨rfl, by simp⟩

/-- C3 (amended): on a non-200 response whose decoded body contains a
`message` field, `get_current_weather` logs that message together with the
status code and returns the empty-marker without raising; when the field
is absent it instead raises a `KeyError`. -/
theorem non200_returns_marker_and_logs (resp : HttpResponse) (d : Doc)
    (hs : resp.status ≠ 200) (hb : resp.body = some d) :
    (∀ m, lookupKey d "message" = some m →
      get_current_weather resp = (.ok emptyMarker, [.apiError m resp.status])) ∧
    (lookupKey d "message" = none →
      get_current_weather resp = (.error (.keyError "message"), [])) := by
  constructor
  · intro m hm
    simp [get_current_weather, hb, hs, hm]
  · intro hm
    simp [get_current_weather, hb, hs, hm]

/-- C3 witness: the amended theorem applied to a 404 response with body
`{"message": "city not found"}`. -/
theorem non200_returns_marker_and_logs_witness :
    get_current_weather ⟨404, some [("message", JVal.jstr "city not found")]⟩ =
      (.ok emptyMarker, [.apiError (JVal.jstr "city not found") 404]) :=
  (non200_returns_marker_and_logs
      ⟨404, some [("message", JVal.jstr "city not found")]⟩
      [("message", JVal.jstr "city not found")] (by decide) rfl).1
    (JVal.jstr "city not found") rfl

/-- C4 (counterexample): an HTTP 200 response whose body decodes to the
empty document `{}` makes `get_current_weather` return exactly the
empty-marker, and the caller's skip test then discards this successfully
fetched reading (nothing is persisted). -/
theorem ok200_empty_body_equals_marker :
    (get_current_weather ⟨200, some []⟩).1 = .ok emptyMarker ∧
    mainStep 0 (fun _ => .success 1) 0 (get_current_weather ⟨200, some []⟩).1 =
      .ok ⟨0, false, false, false⟩ := ⟨rfl, rfl⟩

/-- C4 (amended): on HTTP 200 the decoded body is returned unchanged, and
the returned Reading equals the empty-marker precisely when the decoded
body is the empty document — so the caller's skip test discards a
successful reading exactly when its body was `{}`, and never discards a
nonempty one. -/
theorem ok200_marker_iff_empty_body (resp : HttpResponse) (d : Doc)
    (hs : resp.status = 200) (hb : resp.body = some d) :
    (get_current_weather resp).1 = .ok d ∧ (d = emptyMarker ↔ d = []) := by
  refine ⟨?_, Iff.rfl⟩
  simp [get_current_weather, hb, hs]

/-- C4 witness: the amended theorem applied to a 200 response with the
nonempty body `{"temp": 300}`. -/
theorem ok200_marker_iff_empty_body_witness :
    (get_current_weather ⟨200, some [("temp", JVal.jnum 300)]⟩).1 =
      .ok [("temp", JVal.jnum 300)] ∧
    ([("temp", JVal.jnum 300)] = emptyMarker ↔
      ([("temp", JVal.jnum 300)] : Doc) = []) :=
  ok200_marker_iff_empty_body ⟨200, some [("temp", JVal.jnum 300)]⟩
    [("temp", JVal.jnum 300)] rfl rfl

/-- C7: the request built by `get_current_weather`, evaluated at the
failing input.  With module globals `APIKEY = "global-key"` and the
OpenWeather `BASEURL`, a call passing `url = "https://example.org/weather"`
and `appid = "caller-key"` sends its GET to the global `BASEURL` — not the
given endpoint — and its query's `appid` is the global `APIKEY` — not the
given api key — because src/main.py:144-146 reference the globals instead
of the parameters. -/
theorem weatherRequest_ignores_url_and_appid :
    (weatherRequest "global-key"
        "https://api.openweathermap.org/data/2.5/weather"
        "https://example.org/weather" "caller-key" 2 117
        [("units", PVal.str "metric")]).url =
      "https://api.openweathermap.org/data/2.5/weather" ∧
    "https://api.openweathermap.org/data/2.5/weather" ≠
      "https://example.org/weather" ∧
    lookupKey (weatherRequest "global-key"
        "https://api.openweathermap.org/data/2.5/weather"
        "https://example.org/weather" "caller-key" 2 117
        [("units", PVal.str "metric")]).params "appid" =
      some (PVal.str "global-key") ∧
    PVal.str "global-key" ≠ PVal.str "caller-key" :=
  ⟨rfl, by decide, rfl, by decide⟩

/-- C9: `healthcheck` never throws to its caller: for every outcome of its
single GET request — a response of any status or a raised
`requests.RequestException` (any network-level failure) — it returns
normally, logging the failure in the exception case. -/
theorem healthcheck_never_throws (outcome : HcOutcome) :
    (healthcheck outcome).1 = .ok () ∧
    (∀ e, outcome = .requestException e →
      healthcheck outcome = (.ok (), [.hcFailure e])) := by
  cases outcome with
  | ok status => exact ⟨rfl, by intro e he; cases he⟩
  | requestException e =>
    exact ⟨rfl, by intro e2 he; cases he; rfl⟩

/-- C9 witness: the theorem applied to a concrete raised
`RequestException`. -/
theorem healthcheck_never_throws_witness :
    (healthcheck (.requestException "timeout")).1 = .ok () ∧
    (∀ e, HcOutcome.requestException "timeout" = .requestException e →
      healthcheck (.requestException "timeout") = (.ok (), [.hcFailure e])) :=
  healthcheck_never_throws (.requestException "timeout")

/-- C10: `json.loads(response.text)` runs before the status check, so a
response whose body is not valid JSON makes `get_current_weather` raise a
JSON decode error for *any* status code — including 200 — instead of
returning a Reading or the empty-marker; and the Ingest Loop body
propagates that error unchanged (crashing the process) rather than
skipping the point. -/
theorem invalid_json_raises_for_any_status (resp : HttpResponse)
    (hb : resp.body = none) (now counter : ℕ) (outcomes : ℕ → InsertOutcome) :
    (get_current_weather resp).1 = .error .jsonDecodeError ∧
    mainStep now outcomes counter (get_current_weather resp).1 =
      .error .jsonDecodeError := by
  have h1 : (get_current_weather resp).1 = .error .jsonDecodeError := by
    simp [get_current_weather, hb]
  exact ⟨h1, by rw [h1]; rfl⟩

/-- C10 witness: the theorem applied to a status-200 response with an
undecodable body. -/
theorem invalid_json_raises_for_any_status_witness :
    (get_current_weather ⟨200, none⟩).1 = .error .jsonDecodeError ∧
    mainStep 7 (fun _ => .success 2) 3 (get_current_weather ⟨200, none⟩).1 =
      .error .jsonDecodeError :=
  invalid_json_raises_for_any_status ⟨200, none⟩ rfl 7 3 (fun _ => .success 2)

/-- `linspace` produces exactly `n` points. -/
lemma linspace_length (lo hi : ℚ) (n : ℕ) : (linspace lo hi n).length = n := by
  simp [linspace]

/-- Every `linspace` point lies between the two endpoints. -/
lemma linspace_bounds (lo hi : ℚ) (n : ℕ) (hle : lo ≤ hi) (hn : 2 ≤ n) :
    ∀ y ∈ linspace lo hi n, lo ≤ y ∧ y ≤ hi := by
  intro y hy
  simp only [linspace, List.mem_map, List.mem_range] at hy
  obtain ⟨i, hi_lt, rfl⟩ := hy
  have hn2 : (2 : ℚ) ≤ (n : ℚ) := by exact_mod_cast hn
  have hd : (0 : ℚ) < (n : ℚ) - 1 := by linarith
  have hnum : (0 : ℚ) ≤ (i : ℚ) * (hi - lo) :=
    mul_nonneg (by positivity) (sub_nonneg.mpr hle)
  have hibound : (i : ℚ) ≤ (n : ℚ) - 1 := by
    have : (i : ℚ) + 1 ≤ (n : ℚ) := by exact_mod_cast hi_lt
    linarith
  constructor
  · have : (0 : ℚ) ≤ (i : ℚ) * (hi - lo) / ((n : ℚ) - 1) :=
      div_nonneg hnum hd.le
    linarith
  · have hkey : (i : ℚ) * (hi - lo) / ((n : ℚ) - 1) ≤ hi - lo := by
      rw [div_le_iff₀ hd]
      nlinarith [mul_le_mul_of_nonneg_right hibound (sub_nonneg.mpr hle)]
    linarith

/-- `linspace` points are produced in nondecreasing order. -/
lemma linspace_sorted (lo hi : ℚ) (n : ℕ) (hle : lo ≤ hi) (hn : 2 ≤ n) :
    (linspace lo hi n).Sorted (· ≤ ·) := by
  have hn2 : (2 : ℚ) ≤ (n : ℚ) := by exact_mod_cast hn
  have hd : (0 : ℚ) < (n : ℚ) - 1 := by linarith
  rw [linspace, List.Sorted, List.pairwise_map]
  refine (List.pairwise_lt_range n).imp ?_
  intro i j hij
  have hcast : (i : ℚ) ≤ (j : ℚ) := by exact_mod_cast hij.le
  have hmul := mul_le_mul_of_nonneg_right hcast (sub_nonneg.mpr hle)
  have hdiv := (div_le_div_iff_of_pos_right hd).mpr hmul
  linarith

/-- The left endpoint is the first `linspace` point. -/
lemma left_mem_linspace (lo hi : ℚ) (n : ℕ) (hn : 2 ≤ n) :
    lo ∈ linspace lo hi n := by
  simp only [linspace, List.mem_map, List.mem_range]
  exact ⟨0, by omega, by simp⟩

/-- The right endpoint is the last `linspace` point. -/
lemma right_mem_linspace (lo hi : ℚ) (n : ℕ) (hn : 2 ≤ n) :
    hi ∈ linspace lo hi n := by
  have hn2 : (2 : ℚ) ≤ (n : ℚ) := by exact_mod_cast hn
  have hd : (0 : ℚ) < (n : ℚ) - 1 := by linarith
  simp only [linspace, List.mem_map, List.mem_range]
  refine ⟨n - 1, by omega, ?_⟩
  have hcast : ((n - 1 : ℕ) : ℚ) = (n : ℚ) - 1 := by
    rw [Nat.cast_sub (by omega), Nat.cast_one]
  rw [hcast, mul_div_cancel_left₀ _ hd.ne']
  ring

/-- A min-fold never exceeds its initial value. -/
lemma foldl_min_le_init : ∀ (xs : List ℚ) (x : ℚ), xs.foldl min x ≤ x := by
  intro xs
  induction xs with
  | nil => intro x; exact le_refl x
  | cons y ys ih =>
    intro x
    exact le_trans (ih (min x y)) (min_le_left x y)

/-- A min-fold never exceeds any list element. -/
lemma foldl_min_le_mem : ∀ (xs : List ℚ) (x a : ℚ), a ∈ xs → xs.foldl min x ≤ a := by
  intro xs
  induction xs with
  | nil => intro x a ha; cases ha
  | cons y ys ih =>
    intro x a ha
    rcases List.mem_cons.mp ha with rfl | ha
    · exact le_trans (foldl_min_le_init ys (min x a)) (min_le_right x a)
    · exact ih (min x y) a ha

/-- A common lower bound is below the min-fold. -/
lemma le_foldl_min : ∀ (xs : List ℚ) (x a : ℚ), a ≤ x → (∀ y ∈ xs, a ≤ y) →
    a ≤ xs.foldl min x := by
  intro xs
  induction xs with
  | nil => intro x a hx _; exact hx
  | cons y ys ih =>
    intro x a hx hys
    exact ih (min x y) a (le_min hx (hys y (List.mem_cons_self y ys)))
      (fun z hz => hys z (List.mem_cons_of_mem y hz))

/-- A max-fold is at least its initial value. -/
lemma init_le_foldl_max : ∀ (xs : List ℚ) (x : ℚ), x ≤ xs.foldl max x := by
  intro xs
  induction xs with
  | nil => intro x; exact le_refl x
  | cons y ys ih =>
    intro x
    exact le_trans (le_max_left x y) (ih (max x y))

/-- A max-fold is at least any list element. -/
lemma mem_le_foldl_max : ∀ (xs : List ℚ) (x a : ℚ), a ∈ xs → a ≤ xs.foldl max x := by
  intro xs
  induction xs with
  | nil => intro x a ha; cases ha
  | cons y ys ih =>
    intro x a ha
    rcases List.mem_cons.mp ha with rfl | ha
    · exact le_trans (le_max_right x a) (init_le_foldl_max ys (max x a))
    · exact ih (max x y) a ha

/-- A common upper bound is above the max-fold. -/
lemma foldl_max_le : ∀ (xs : List ℚ) (x a : ℚ), x ≤ a → (∀ y ∈ xs, y ≤ a) →
    xs.foldl max x ≤ a := by
  intro xs
  induction xs with
  | nil => intro x a hx _; exact hx
  | cons y ys ih =>
    intro x a hx hys
    exact ih (max x y) a (max_le hx (hys y (List.mem_cons_self y ys)))
      (fun z hz => hys z (List.mem_cons_of_mem y hz))

/-- `pyMin l` equals any member of `l` that bounds `l` from below. -/
lemma pyMin_eq_of (l : List ℚ) (a : ℚ) (ha : a ∈ l) (hle : ∀ y ∈ l, a ≤ y) :
    pyMin l = a := by
  cases l with
  | nil => cases ha
  | cons x xs =>
    refine le_antisymm ?_ ?_
    · rcases List.mem_cons.mp ha with rfl | ha
      · exact foldl_min_le_init xs a
      · exact foldl_min_le_mem xs x a ha
    · exact le_foldl_min xs x a (hle x (List.mem_cons_self x xs))
        (fun y hy => hle y (List.mem_cons_of_mem x hy))

/-- `pyMax l` equals any member of `l` that bounds `l` from above. -/
lemma pyMax_eq_of (l : List ℚ) (a : ℚ) (ha : a ∈ l) (hle : ∀ y ∈ l, y ≤ a) :
    pyMax l = a := by
  cases l with
  | nil => cases ha
  | cons x xs =>
    refine le_antisymm ?_ ?_
    · exact foldl_max_le xs x a (hle x (List.mem_cons_self x xs))
        (fun y hy => hle y (List.mem_cons_of_mem x hy))
    · rcases List.mem_cons.mp ha with rfl | ha
      · exact init_le_foldl_max xs a
      · exact mem_le_foldl_max xs x a ha

/-- On a nonempty list, `pyMin` is at most `pyMax`. -/
lemma pyMin_le_pyMax (l : List ℚ) (h : l ≠ []) : pyMin l ≤ pyMax l := by
  cases l with
  | nil => exact absurd rfl h
  | cons x xs =>
    exact le_trans (foldl_min_le_init xs x) (init_le_foldl_max xs x)

/-- Every grid point's latitude and longitude lie between the
corresponding min and max over the corners. -/
lemma grid_point_bounds (corners : List (ℚ × ℚ)) (grid : ℕ) (hg : 2 ≤ grid)
    (h1 : pyMin (corners.map Prod.fst) ≤ pyMax (corners.map Prod.fst))
    (h2 : pyMin (corners.map Prod.snd) ≤ pyMax (corners.map Prod.snd)) :
    ∀ p ∈ get_grid_coordinates corners grid,
      pyMin (corners.map Prod.fst) ≤ p.1 ∧ p.1 ≤ pyMax (corners.map Prod.fst) ∧
      pyMin (corners.map Prod.snd) ≤ p.2 ∧ p.2 ≤ pyMax (corners.map Prod.snd) := by
  intro p hp
  simp only [get_grid_coordinates, List.mem_flatMap, List.mem_map] at hp
  obtain ⟨a, ha, b, hb, rfl⟩ := hp
  obtain ⟨ha1, ha2⟩ := linspace_bounds _ _ grid h1 hg a ha
  obtain ⟨hb1, hb2⟩ := linspace_bounds _ _ grid h2 hg b hb
  exact ⟨ha1, ha2, hb1, hb2⟩

/-- C6: for 4 corner Coordinates and density ≥ 2, `get_grid_coordinates`
returns exactly `density²` Coordinates; the min and max of the produced
latitudes equal the min and max of the corners' latitudes (likewise
longitudes); and the output is the latitude-major cross product of one
ascending list of `density` latitudes with one ascending list of
`density` longitudes. -/
theorem get_grid_coordinates_spec (corners : List (ℚ × ℚ)) (grid : ℕ)
    (hc : corners.length = 4) (hg : 2 ≤ grid) :
    (get_grid_coordinates corners grid).length = grid * grid ∧
    pyMin ((get_grid_coordinates corners grid).map Prod.fst) =
      pyMin (corners.map Prod.fst) ∧
    pyMax ((get_grid_coordinates corners grid).map Prod.fst) =
      pyMax (corners.map Prod.fst) ∧
    pyMin ((get_grid_coordinates corners grid).map Prod.snd) =
      pyMin (corners.map Prod.snd) ∧
    pyMax ((get_grid_coordinates corners grid).map Prod.snd) =
      pyMax (corners.map Prod.snd) ∧
    ∃ lats lons : List ℚ,
      lats.Sorted (· ≤ ·) ∧ lons.Sorted (· ≤ ·) ∧
      lats.length = grid ∧ lons.length = grid ∧
      get_grid_coordinates corners grid =
        lats.flatMap (fun a => lons.map (fun b => (a, b))) := by
  have hne1 : corners.map Prod.fst ≠ [] := by
    intro h
    have := congrArg List.length h
    simp [hc] at this
  have hne2 : corners.map Prod.snd ≠ [] := by
    intro h
    have := congrArg List.length h
    simp [hc] at this
  have h1 := pyMin_le_pyMax _ hne1
  have h2 := pyMin_le_pyMax _ hne2
  have hbounds := grid_point_bounds corners grid hg h1 h2
  have hminmem : (pyMin (corners.map Prod.fst), pyMin (corners.map Prod.snd)) ∈
      get_grid_coordinates corners grid := by
    simp only [get_grid_coordinates, List.mem_flatMap, List.mem_map]
    exact ⟨_, left_mem_linspace _ _ grid hg, _, left_mem_linspace _ _ grid hg, rfl⟩
  have hmaxmem : (pyMax (corners.map Prod.fst), pyMax (corners.map Prod.snd)) ∈
      get_grid_coordinates corners grid := by
    simp only [get_grid_coordinates, List.mem_flatMap, List.mem_map]
    exact ⟨_, right_mem_linspace _ _ grid hg, _, right_mem_linspace _ _ grid hg, rfl⟩
  refine ⟨?_, ?_, ?_, ?_, ?_, ?_⟩
  · simp only [get_grid_coordinates, List.length_flatMap, Function.comp_def,
      List.length_map]
    rw [List.map_const', List.sum_replicate, smul_eq_mul, linspace_length,
      linspace_length]
  · refine pyMin_eq_of _ _ (List.mem_map.mpr ⟨_, hminmem, rfl⟩) ?_
    intro y hy
    obtain ⟨p, hp, rfl⟩ := List.mem_map.mp hy
    exact (hbounds p hp).1
  · refine pyMax_eq_of _ _ (List.mem_map.mpr ⟨_, hmaxmem, rfl⟩) ?_
    intro y hy
    obtain ⟨p, hp, rfl⟩ := List.mem_map.mp hy
    exact (hbounds p hp).2.1
  · refine pyMin_eq_of _ _ (List.mem_map.mpr ⟨_, hminmem, rfl⟩) ?_
    intro y hy
    obtain ⟨p, hp, rfl⟩ := List.mem_map.mp hy
    exact (hbounds p hp).2.2.1
  · refine pyMax_eq_of _ _ (List.mem_map.mpr ⟨_, hmaxmem, rfl⟩) ?_
    intro y hy
    obtain ⟨p, hp, rfl⟩ := List.mem_map.mp hy
    exact (hbounds p hp).2.2.2
  · exact ⟨linspace (pyMin (corners.map Prod.fst)) (pyMax (corners.map Prod.fst)) grid,
      linspace (pyMin (corners.map Prod.snd)) (pyMax (corners.map Prod.snd)) grid,
      linspace_sorted _ _ grid h1 hg, linspace_sorted _ _ grid h2 hg,
      linspace_length _ _ grid, linspace_length _ _ grid, rfl⟩

/-- C6 witness: the theorem applied to the unit-square corners and
density 2. -/
theorem get_grid_coordinates_spec_witness :
    (get_grid_coordinates [(0, 0), (1, 0), (0, 1), (1, 1)] 2).length = 2 * 2 ∧
    pyMin ((get_grid_coordinates [(0, 0), (1, 0), (0, 1), (1, 1)] 2).map Prod.fst) =
      pyMin (([(0, 0), (1, 0), (0, 1), (1, 1)] : List (ℚ × ℚ)).map Prod.fst) ∧
    pyMax ((get_grid_coordinates [(0, 0), (1, 0), (0, 1), (1, 1)] 2).map Prod.fst) =
      pyMax (([(0, 0), (1, 0), (0, 1), (1, 1)] : List (ℚ × ℚ)).map Prod.fst) ∧
    pyMin ((get_grid_coordinates [(0, 0), (1, 0), (0, 1), (1, 1)] 2).map Prod.snd) =
      pyMin (([(0, 0), (1, 0), (0, 1), (1, 1)] : List (ℚ × ℚ)).map Prod.snd) ∧
    pyMax ((get_grid_coordinates [(0, 0), (1, 0), (0, 1), (1, 1)] 2).map Prod.snd) =
      pyMax (([(0, 0), (1, 0), (0, 1), (1, 1)] : List (ℚ × ℚ)).map Prod.snd) ∧
    ∃ lats lons : List ℚ,
      lats.Sorted (· ≤ ·) ∧ lons.Sorted (· ≤ ·) ∧
      lats.length = 2 ∧ lons.length = 2 ∧
      get_grid_coordinates [(0, 0), (1, 0), (0, 1), (1, 1)] 2 =
        lats.flatMap (fun a => lons.map (fun b => (a, b))) :=
  get_grid_coordinates_spec [(0, 0), (1, 0), (0, 1), (1, 1)] 2 rfl (by decide)

end WeatherPipeline
